import Mathlib

/-!
Verification of the koi-fish-appraisal measurement services.

This file gives a shallow embedding of the measurement code of the
repository (backend/app/config.py, backend/app/services/size_detection.py,
backend/app/services/color_analysis.py,
backend/app/services/symmetry_analysis.py,
backend/app/services/price_prediction.py) and proves the specified
properties about it.

Modelling conventions:
- Python numbers are embedded as exact rationals where the code only adds,
  multiplies and divides, and as real numbers where square roots or pi
  appear; Python ZeroDivisionError is modelled with Except.
- Python dict lookups become functions into Option; functions that can
  raise become functions into Except.
- OpenCV primitives (Canny, dilate, warpAffine, PCACompute, calcHist,
  compareHist, cvtColor) are external library calls, not repository code:
  they are passed in as opaque function parameters, while every line of
  repository logic around them is embedded faithfully.
- Images for the color engine are flattened to lists of HSV pixels paired
  with their mask bit; all color-engine quantities are pointwise counts,
  means and standard deviations, which do not depend on the 2-D layout.
-/

namespace KoiAppraisal

/-- Coin specification from COIN_SIZES in app/config.py: diameters in
millimeters and centimeters, as exact rationals (weight and description
fields are omitted: nothing in the code reads them). -/
structure CoinSpec where
  diameter_mm : ℚ
  diameter_cm : ℚ
deriving DecidableEq, Repr

/-- COIN_SIZES table from app/config.py. The Python dict lookup is
modelled as a function to Option, comparing against each key in order. -/
def COIN_SIZES (k : String) : Option CoinSpec :=
  if k = "1peso_new" then some ⟨23, 23/10⟩
  else if k = "1peso_old" then some ⟨24, 24/10⟩
  else if k = "5peso_new" then some ⟨25, 25/10⟩
  else if k = "5peso_old" then some ⟨27, 27/10⟩
  else if k = "10peso_new" then some ⟨27, 27/10⟩
  else if k = "10peso_old" then some ⟨27, 27/10⟩
  else if k = "20peso" then some ⟨30, 3⟩
  else none

/-- list(COIN_SIZES.keys()) in insertion order. -/
def COIN_SIZES_KEYS : List String :=
  ["1peso_new", "1peso_old", "5peso_new", "5peso_old",
   "10peso_new", "10peso_old", "20peso"]

/-- COIN_CLASS_MAP from app/config.py: maps model output class names to
COIN_SIZES keys. Keys mapping to the same value are grouped with
disjunctions; the Python dict semantics is unchanged. -/
def COIN_CLASS_MAP (k : String) : Option String :=
  if k = "1 peso new front" ∨ k = "1 peso new back" ∨
     k = "1peso new front" ∨ k = "1peso new back" then some "1peso_new"
  else if k = "1 peso old front" ∨ k = "1 peso old back" ∨
     k = "1peso old front" ∨ k = "1peso old back" then some "1peso_old"
  else if k = "5 peso new front" ∨ k = "5 peso new back" ∨
     k = "5peso new front" ∨ k = "5peso new back" then some "5peso_new"
  else if k = "5 peso old front" ∨ k = "5 peso old back" ∨
     k = "5peso old front" ∨ k = "5peso old back" then some "5peso_old"
  else if k = "10 peso new front" ∨ k = "10 peso new back" ∨
     k = "10peso new front" ∨ k = "10peso new back" then some "10peso_new"
  else if k = "10 peso old front" ∨ k = "10 peso old back" ∨
     k = "10peso old front" ∨ k = "10peso old back" then some "10peso_old"
  else if k = "20 peso front" ∨ k = "20 peso back" ∨
     k = "20peso front" ∨ k = "20peso back" then some "20peso"
  else none

/-- The message of the ValueError raised by normalize_coin_class
(app/config.py lines 166-169); the Python repr of the key list is
abbreviated to a comma-separated listing of the valid classes. -/
def unknownCoinClassMsg (coin_class : String) : String :=
  "Unknown coin class: " ++ coin_class ++ ". Valid classes: " ++
    String.intercalate ", " COIN_SIZES_KEYS

/-- Python str.lower on the ASCII labels of this code: lowercase every
character. -/
def lowercase (s : String) : String := ⟨s.data.map Char.toLower⟩

/-- normalize_coin_class from app/config.py lines 144-169: first checks
whether the label is already a valid COIN_SIZES key (case-sensitive),
then looks the lowercased label up in COIN_CLASS_MAP, and otherwise
raises ValueError. -/
def normalize_coin_class (coin_class : String) : Except String String :=
  if (COIN_SIZES coin_class).isSome then Except.ok coin_class
  else
    match COIN_CLASS_MAP (lowercase coin_class) with
    | some normalized => Except.ok normalized
    | none => Except.error (unknownCoinClassMsg coin_class)

/-- get_coin_diameter_cm from app/config.py lines 172-186: normalizes the
class and reads the diameter_cm field; an impossible missing key would be
a Python KeyError. -/
def get_coin_diameter_cm (coin_class : String) : Except String ℚ :=
  match normalize_coin_class coin_class with
  | Except.error e => Except.error e
  | Except.ok normalized =>
    match COIN_SIZES normalized with
    | some spec => Except.ok spec.diameter_cm
    | none => Except.error "KeyError"

/-- SizeDetector.calculate_ppc from app/services/size_detection.py lines
146-160: looks up the coin diameter and divides the pixel diameter by it.
A zero table diameter would raise ZeroDivisionError in Python, so the
division is guarded to keep the embedding faithful. -/
def calculate_ppc (coin_class : String) (coin_diameter_pixels : ℤ) :
    Except String ℚ :=
  match get_coin_diameter_cm coin_class with
  | Except.error e => Except.error e
  | Except.ok coin_diameter_cm =>
    if coin_diameter_cm = 0 then Except.error "ZeroDivisionError"
    else Except.ok ((coin_diameter_pixels : ℚ) / coin_diameter_cm)

/-- The area computation of SizeDetector.calculate_fish_size
(size_detection.py line 181): area_cm2 = fish_pixel_count / ppc ** 2,
raising ZeroDivisionError when ppc ** 2 = 0. -/
def fish_area_cm2 (fish_pixel_count : ℕ) (ppc : ℚ) : Except String ℚ :=
  if ppc ^ 2 = 0 then Except.error "ZeroDivisionError"
  else Except.ok ((fish_pixel_count : ℚ) / ppc ^ 2)

/-- SizeDetector.calculate_fish_size from size_detection.py lines
162-194: converts the pixel count to an area and applies the ellipse
model sqrt(4 * 5.5 * area_cm2 / pi), where 5.5 is the fixed length to
width ratio of the code (the variable named aspect there). -/
noncomputable def calculate_fish_size (fish_pixel_count : ℕ) (ppc : ℚ) :
    Except String ℝ :=
  match fish_area_cm2 fish_pixel_count ppc with
  | Except.error e => Except.error e
  | Except.ok area_cm2 =>
    Except.ok (Real.sqrt ((4 * (11/2 : ℝ) * (area_cm2 : ℝ)) / Real.pi))

/-- One 8-bit HSV pixel as produced by cv2.cvtColor (hue in 0..179,
saturation and value in 0..255 for valid OpenCV images). -/
structure HSV where
  h : ℕ
  s : ℕ
  v : ℕ
deriving DecidableEq, Repr

/-- Well-formedness of an 8-bit OpenCV HSV pixel. -/
def HSV.wf (p : HSV) : Prop := p.h ≤ 179 ∧ p.s ≤ 255 ∧ p.v ≤ 255

instance (p : HSV) : Decidable p.wf := by unfold HSV.wf; infer_instance

/-- cv2.inRange on a single pixel: inclusive per-channel bound test. -/
def inRange (lower upper p : HSV) : Bool :=
  decide (lower.h ≤ p.h) && decide (p.h ≤ upper.h) &&
  decide (lower.s ≤ p.s) && decide (p.s ≤ upper.s) &&
  decide (lower.v ≤ p.v) && decide (p.v ≤ upper.v)

/-- One inclusive HSV range of a color band. -/
structure BandRange where
  lower : HSV
  upper : HSV
deriving DecidableEq, Repr

/-- The color threshold table of app/services/color_analysis.py: one
range for white and black, two for red (hue wrap-around). -/
structure ColorThresholds where
  white : BandRange
  red1 : BandRange
  red2 : BandRange
  black : BandRange
deriving DecidableEq, Repr

/-- DEFAULT_COLOR_THRESHOLDS from color_analysis.py lines 33-52. -/
def DEFAULT_COLOR_THRESHOLDS : ColorThresholds where
  white := ⟨⟨0, 0, 180⟩, ⟨179, 50, 255⟩⟩
  red1 := ⟨⟨0, 100, 100⟩, ⟨10, 255, 255⟩⟩
  red2 := ⟨⟨160, 100, 100⟩, ⟨179, 255, 255⟩⟩
  black := ⟨⟨0, 0, 0⟩, ⟨179, 255, 50⟩⟩

/-- The color engine input: the image flattened to a list of HSV pixels,
each paired with its mask bit. Percentages, means and standard
deviations are pointwise, so the 2-D layout is irrelevant to them. -/
abbrev MaskedImage := List (HSV × Bool)

/-- cv2.bitwise_and(image, image, mask=mask) followed by BGR to HSV
conversion: a masked-out BGR pixel becomes (0,0,0), whose HSV image is
(0,0,0); a masked-in pixel keeps its HSV value. -/
def maskedHSV (px : MaskedImage) : MaskedImage :=
  px.map (fun p => (if p.2 then p.1 else ⟨0, 0, 0⟩, p.2))

/-- Number of set entries of a boolean list (np.sum(mask > 0)). -/
def countTrue (l : List Bool) : ℕ := (l.filter id).length

/-- ColorAnalyzer._create_white_mask from color_analysis.py lines
161-171: inRange test intersected with the fish mask. -/
def create_white_mask (t : ColorThresholds) (px : MaskedImage) :
    List Bool :=
  px.map (fun p => inRange t.white.lower t.white.upper p.1 && p.2)

/-- ColorAnalyzer._create_red_mask from color_analysis.py lines 173-193:
union of the two red ranges, intersected with the fish mask. -/
def create_red_mask (t : ColorThresholds) (px : MaskedImage) :
    List Bool :=
  px.map (fun p =>
    (inRange t.red1.lower t.red1.upper p.1 ||
     inRange t.red2.lower t.red2.upper p.1) && p.2)

/-- ColorAnalyzer._create_black_mask from color_analysis.py lines
195-205: inRange test intersected with the fish mask. -/
def create_black_mask (t : ColorThresholds) (px : MaskedImage) :
    List Bool :=
  px.map (fun p => inRange t.black.lower t.black.upper p.1 && p.2)

/-- numpy boolean indexing vals[mask > 0]: keep the values whose mask
bit is set. -/
def select (vals : List ℕ) (m : List Bool) : List ℕ :=
  ((vals.zip m).filter (fun p => p.2)).map (fun p => p.1)

/-- np.mean over natural values, as an exact rational (0 on the empty
list, which the code never reaches). -/
def meanQ (l : List ℕ) : ℚ := (l.sum : ℚ) / l.length

/-- np.std over natural values: square root of the population variance. -/
noncomputable def stdQ (l : List ℕ) : ℝ :=
  Real.sqrt (((l.map (fun x => ((x : ℚ) - meanQ l) ^ 2)).sum / l.length : ℚ))

/-- The per-pixel band code of _calculate_edge_sharpness lines 287-289:
white contributes 1, red 2, black 3. -/
def combineBands (wm rm bm : List Bool) : List ℕ :=
  (wm.zip (rm.zip bm)).map
    (fun p => cond p.1 1 0 + cond p.2.1 2 0 + cond p.2.2 3 0)

/-- The OpenCV spatial primitives the color engine calls (cv2.Canny and
cv2.dilate, color_analysis.py lines 292-296): external library code,
passed in opaquely. They consume the scaled band-code map and produce
edge indicator maps. -/
structure EdgePrims where
  canny : List ℕ → List Bool
  dilate : List Bool → List Bool

/-- ColorAnalyzer._calculate_saturation_score from color_analysis.py
lines 257-274: neutral 0.5 when the red band is empty, otherwise the
mean saturation of red-band pixels divided by 255. -/
noncomputable def calculate_saturation_score (hsv : MaskedImage)
    (red_mask : List Bool) : ℝ :=
  if countTrue red_mask = 0 then 1/2
  else (meanQ (select (hsv.map (fun p => p.1.s)) red_mask) : ℝ) / 255

/-- ColorAnalyzer._calculate_edge_sharpness from color_analysis.py lines
276-307: edge count over dilated edge count, scaled by 1.5 and capped at
1; neutral 0.5 when the dilated edge map is empty. -/
noncomputable def calculate_edge_sharpness (P : EdgePrims)
    (wm rm bm : List Bool) : ℝ :=
  let combined := combineBands wm rm bm
  let edges := P.canny (combined.map (· * 50))
  let dilated_edges := P.dilate edges
  if countTrue dilated_edges = 0 then 1/2
  else min ((countTrue edges : ℝ) / (countTrue dilated_edges) * (3/2)) 1

/-- ColorAnalyzer._calculate_color_consistency from color_analysis.py
lines 309-350: per band with more than 100 member pixels, map the spread
of its defining channels to a score via max(0, 1 - std/divisor); average
the qualifying bands, 0.5 if none qualifies. -/
noncomputable def calculate_color_consistency (hsv : MaskedImage)
    (wm rm bm : List Bool) : ℝ :=
  let scores : List ℝ :=
    (if 100 < countTrue wm then
      [max 0 (1 - stdQ (select (hsv.map (fun p => p.1.v)) wm) / 50)]
     else []) ++
    (if 100 < countTrue rm then
      [max 0 (1 - (stdQ (select (hsv.map (fun p => p.1.h)) rm) +
                   stdQ (select (hsv.map (fun p => p.1.s)) rm) / 3) / 50)]
     else []) ++
    (if 100 < countTrue bm then
      [max 0 (1 - stdQ (select (hsv.map (fun p => p.1.v)) bm) / 30)]
     else [])
  if scores = [] then 1/2 else scores.sum / scores.length

/-- ColorAnalyzer._calculate_quality_score from color_analysis.py lines
207-255: weighted sum of the three sub-scores with weights 0.4, 0.35,
0.25, clamped to the unit interval. The fish_mask argument of the Python
method is unused by its body and kept for fidelity. -/
noncomputable def calculate_quality_score (P : EdgePrims)
    (hsv : MaskedImage) (_fish_mask wm rm bm : List Bool) : ℝ :=
  let saturation_score := calculate_saturation_score hsv rm
  let edge_score := calculate_edge_sharpness P wm rm bm
  let consistency_score := calculate_color_consistency hsv wm rm bm
  let quality := saturation_score * (2/5) + edge_score * (7/20) +
    consistency_score * (1/4)
  min (max quality 0) 1

/-- The result record of ColorAnalyzer.analyze_colors. -/
structure ColorMetrics where
  white_pct : ℝ
  red_pct : ℝ
  black_pct : ℝ
  quality_score : ℝ

/-- ColorAnalyzer.analyze_colors from color_analysis.py lines 99-159:
mask the image, convert to HSV, return all zeros when the mask has no
set pixel, otherwise build the three band masks, take their percentages
of the masked-pixel total, and compute the quality score. -/
noncomputable def analyze_colors (P : EdgePrims) (t : ColorThresholds)
    (px : MaskedImage) : ColorMetrics :=
  let hsv := maskedHSV px
  let total_pixels := countTrue (px.map (fun p => p.2))
  if total_pixels = 0 then ⟨0, 0, 0, 0⟩
  else
    let white_mask := create_white_mask t hsv
    let red_mask := create_red_mask t hsv
    let black_mask := create_black_mask t hsv
    let white_pct := ((countTrue white_mask : ℝ) / total_pixels) * 100
    let red_pct := ((countTrue red_mask : ℝ) / total_pixels) * 100
    let black_pct := ((countTrue black_mask : ℝ) / total_pixels) * 100
    let quality_score := calculate_quality_score P hsv
      (px.map (fun p => p.2)) white_mask red_mask black_mask
    ⟨white_pct, red_pct, black_pct, quality_score⟩

/-- The OpenCV and numpy primitives the symmetry engine calls, over an
abstract image type Img: these are external library code (argwhere
counting, PCACompute plus warpAffine plus crop, half splitting with
flip, calcHist with normalize and compareHist, Canny on grayscale,
bitwise_xor, shape, per-cell hue histograms). Every line of repository
logic around them is embedded below. -/
structure SymPrims (Img : Type) where
  countSet : Img → ℕ
  rotateAndCrop : Img → Img → Img × Img
  splitHalves : Img → Img → Img × Img
  histCorrel : Img → Img → ℝ
  cannyGray : Img → Img
  xorImg : Img → Img → Img
  height : Img → ℕ
  width : Img → ℕ
  hueHist : Img → ℕ → ℕ → List ℕ

/-- SymmetryAnalyzer._align_fish from symmetry_analysis.py lines 65-136:
returns None when the mask has fewer than 10 set pixels, otherwise the
PCA-aligned and cropped image and mask. -/
def align_fish {Img : Type} (P : SymPrims Img) (image mask : Img) :
    Option (Img × Img) :=
  if P.countSet mask < 10 then none
  else some (P.rotateAndCrop image mask)

/-- SymmetryAnalyzer._compare_color_histograms from symmetry_analysis.py
lines 255-294: the opaque correlation statistic of the two normalized
HSV histograms, remapped from the [-1,1] range to [0,1] by (r+1)/2. -/
noncomputable def compare_color_histograms {Img : Type}
    (P : SymPrims Img) (left right : Img) : ℝ :=
  (P.histCorrel left right + 1) / 2

/-- SymmetryAnalyzer._compare_structure from symmetry_analysis.py lines
296-328: XOR of the two edge maps over the total edge count, floored at
0; neutral 0.5 when neither half has edges. -/
noncomputable def compare_structure {Img : Type} (P : SymPrims Img)
    (left right : Img) : ℝ :=
  let left_edges := P.cannyGray left
  let right_edges := P.cannyGray right
  let total_edges := P.countSet left_edges + P.countSet right_edges
  if total_edges = 0 then 1/2
  else
    let diff_edges := P.countSet (P.xorImg left_edges right_edges)
    max 0 (1 - (diff_edges : ℝ) / total_edges)

/-- The chi-squared statistic of _compare_pattern_distribution lines
368-372: 1 is added to every bin, then sum of (l-r)^2/(l+r). -/
def cellChiSq (lh rh : List ℕ) : ℚ :=
  let l1 : List ℕ := lh.map (fun x => x + 1)
  let r1 : List ℕ := rh.map (fun x => x + 1)
  ((l1.zip r1).map
    (fun p => ((p.1 : ℚ) - (p.2 : ℚ)) ^ 2 / ((p.1 : ℚ) + (p.2 : ℚ)))).sum

/-- SymmetryAnalyzer._compare_pattern_distribution from
symmetry_analysis.py lines 330-379: neutral 0.5 when a 3x3 grid cell
would be under 10 pixels in either dimension, otherwise the mean over
the 9 cells of 1 / (1 + 0.01 * chi squared) on per-cell hue histograms. -/
noncomputable def compare_pattern_distribution {Img : Type}
    (P : SymPrims Img) (left right : Img) : ℝ :=
  let grid_h := P.height left / 3
  let grid_w := P.width left / 3
  if grid_h < 10 ∨ grid_w < 10 then 1/2
  else
    let scores : List ℝ :=
      (List.range 3).flatMap (fun i => (List.range 3).map (fun j =>
        ((1 / (1 + cellChiSq (P.hueHist left i j) (P.hueHist right i j)
          * (1/100)) : ℚ) : ℝ)))
    scores.sum / scores.length

/-- SymmetryAnalyzer._calculate_symmetry_score from symmetry_analysis.py
lines 215-253: weighted sum of the three comparisons with weights 0.4,
0.3, 0.3, clamped to the unit interval. -/
noncomputable def calculate_symmetry_score {Img : Type}
    (P : SymPrims Img) (left_half right_half : Img) : ℝ :=
  let hist_score := compare_color_histograms P left_half right_half
  let struct_score := compare_structure P left_half right_half
  let pattern_score := compare_pattern_distribution P left_half right_half
  let final_score := hist_score * (2/5) + struct_score * (3/10) +
    pattern_score * (3/10)
  min (max final_score 0) 1

/-- SymmetryAnalyzer.analyze_symmetry from symmetry_analysis.py lines
30-63: neutral 0.5 when alignment fails, otherwise split the aligned
canvas and score the halves. The None check on the split halves in the
Python code is dead (the split always returns both halves), so the
split is total here. -/
noncomputable def analyze_symmetry {Img : Type} (P : SymPrims Img)
    (image mask : Img) : ℝ :=
  match align_fish P image mask with
  | none => 1/2
  | some (aligned_image, aligned_mask) =>
    let halves := P.splitHalves aligned_image aligned_mask
    calculate_symmetry_score P halves.1 halves.2

/-- PricePredictor._build_feature_vector from price_prediction.py lines
137-171: one-hot encodes the lowercased pattern name and lays the ten
features out in the fixed order consumed by the price model. -/
def build_feature_vector (size_cm : ℝ) (pattern_name : String)
    (pattern_confidence color_white_pct color_red_pct color_black_pct
     color_quality_score symmetry_score : ℝ) : List ℝ :=
  let pattern_ogon : ℝ := if lowercase pattern_name = "ogon" then 1 else 0
  let pattern_showa : ℝ := if lowercase pattern_name = "showa" then 1 else 0
  let pattern_kohaku : ℝ :=
    if lowercase pattern_name = "kohaku" then 1 else 0
  [size_cm, pattern_ogon, pattern_showa, pattern_kohaku,
   pattern_confidence, color_white_pct, color_red_pct, color_black_pct,
   color_quality_score, symmetry_score]

/-- A concrete edge-primitive instance for witnesses: no edges detected,
dilation as the identity. -/
def trivialEdgePrims : EdgePrims where
  canny := fun l => l.map (fun _ => false)
  dilate := fun l => l

/-- A concrete symmetry-primitive instance over 2-D byte grids, for
witnesses: counting nonzero entries, geometric operations as identities,
zero correlation, no edges, 18 empty hue bins. -/
def trivialSymPrims : SymPrims (List (List ℕ)) where
  countSet := fun g => (g.map (fun row => (row.filter (0 < ·)).length)).sum
  rotateAndCrop := fun i m => (i, m)
  splitHalves := fun i m => (i, m)
  histCorrel := fun _ _ => 0
  cannyGray := fun _ => []
  xorImg := fun i _ => i
  height := fun g => g.length
  width := fun g => (g.headD []).length
  hueHist := fun _ _ _ => List.replicate 18 0

/-- Every diameter stored in the COIN_SIZES table is positive. -/
theorem COIN_SIZES_pos (k : String) (spec : CoinSpec)
    (h : COIN_SIZES k = some spec) : 0 < spec.diameter_cm := by
  unfold COIN_SIZES at h
  split_ifs at h <;> simp_all <;> subst h <;> norm_num

/-- Every value of the alias map is a valid COIN_SIZES key. -/
theorem COIN_CLASS_MAP_valid (s k : String)
    (h : COIN_CLASS_MAP s = some k) : (COIN_SIZES k).isSome := by
  unfold COIN_CLASS_MAP at h
  split_ifs at h <;> simp_all <;> subst h <;> decide

/-- Any diameter successfully returned by get_coin_diameter_cm comes
from the table and is positive. -/
theorem get_coin_diameter_cm_pos (cls : String) (c : ℚ)
    (hc : get_coin_diameter_cm cls = Except.ok c) : 0 < c := by
  unfold get_coin_diameter_cm at hc
  split at hc
  next e heq => exact absurd hc (by simp)
  next k heq =>
    split at hc
    next spec hs =>
      have hce : spec.diameter_cm = c := by simpa using hc
      exact hce ▸ COIN_SIZES_pos k spec hs
    next hs => exact absurd hc (by simp)

/-- calculate_ppc on a resolvable class divides the pixel diameter by
the table diameter, whatever the sign of the pixel diameter. -/
theorem calculate_ppc_eq (cls : String) (d : ℤ) (c : ℚ)
    (hc : get_coin_diameter_cm cls = Except.ok c) :
    calculate_ppc cls d = Except.ok ((d : ℚ) / c) := by
  have hpos := get_coin_diameter_cm_pos cls c hc
  unfold calculate_ppc
  rw [hc]
  dsimp only
  rw [if_neg hpos.ne']

/-- calculate_fish_size for nonzero ppc returns the closed-form
ellipse-model length. -/
theorem calculate_fish_size_eq (n : ℕ) (ppc : ℚ) (h : ppc ≠ 0) :
    calculate_fish_size n ppc =
      Except.ok (Real.sqrt
        (4 * (11/2 : ℝ) * ((n : ℝ) / (ppc : ℝ) ^ 2) / Real.pi)) := by
  unfold calculate_fish_size fish_area_cm2
  rw [if_neg (pow_ne_zero 2 h)]
  dsimp only
  have hcast : (((n : ℚ) / ppc ^ 2 : ℚ) : ℝ) = (n : ℝ) / (ppc : ℝ) ^ 2 := by
    push_cast
    ring
  rw [hcast]

/-- C1 counterexample: the claim says every non-positive calibration
input makes calculate_ppc raise InvalidCalibration, but at the
non-positive pixel diameter 0 with the valid class 5peso_old the code
returns the number 0 and raises nothing. -/
theorem calculate_ppc_zero_pixels_returns_number :
    calculate_ppc "5peso_old" 0 = Except.ok 0 ∧ (0 : ℤ) ≤ 0 := by
  constructor
  · have hc : get_coin_diameter_cm "5peso_old" = Except.ok (27/10) := rfl
    rw [calculate_ppc_eq "5peso_old" 0 (27/10) hc]
    norm_num
  · exact le_refl 0

/-- C1 amended: there is no calibration validation and no
InvalidCalibration error. The table diameter of every resolvable class
is positive (so a non-positive reference_diameter_cm is unreachable),
calculate_ppc returns the plain quotient for every pixel diameter,
including non-positive ones, and calculate_fish_size raises only
ZeroDivisionError, exactly when ppc = 0, returning a number otherwise. -/
theorem calculate_ppc_and_fish_size_never_invalid_calibration
    (cls : String) (d : ℤ) (c : ℚ)
    (hc : get_coin_diameter_cm cls = Except.ok c) :
    0 < c ∧ calculate_ppc cls d = Except.ok ((d : ℚ) / c) ∧
    (∀ ppc : ℚ, ppc ≠ 0 → ∀ n : ℕ, ∃ s : ℝ,
      calculate_fish_size n ppc = Except.ok s) ∧
    (∀ n : ℕ, calculate_fish_size n 0 = Except.error "ZeroDivisionError") := by
  refine ⟨get_coin_diameter_cm_pos cls c hc, calculate_ppc_eq cls d c hc,
    fun ppc hppc n => ⟨_, calculate_fish_size_eq n ppc hppc⟩, fun n => ?_⟩
  unfold calculate_fish_size fish_area_cm2
  norm_num

/-- C1 witness: instantiation at the class 20peso and the negative pixel
diameter -5. -/
theorem calculate_ppc_no_validation_witness :
    0 < (3 : ℚ) ∧ calculate_ppc "20peso" (-5) = Except.ok (((-5 : ℤ) : ℚ) / 3) ∧
    (∀ ppc : ℚ, ppc ≠ 0 → ∀ n : ℕ, ∃ s : ℝ,
      calculate_fish_size n ppc = Except.ok s) ∧
    (∀ n : ℕ, calculate_fish_size n 0 = Except.error "ZeroDivisionError") :=
  calculate_ppc_and_fish_size_never_invalid_calibration "20peso" (-5) 3 rfl

/-- C2: the composed size estimate equals
sqrt(4 * 5.5 * (fish_pixel_count / ppc^2) / pi) with ppc = d / c for a
resolvable reference class of diameter c and pixel diameter d, and in
the end-to-end scenario a 100-pixel reference of class 5peso_old
(2.7 cm) gives ppc = 1000/27 (about 37.04), a 50000-pixel mask gives
area exactly 36.45 cm2, and the size is within 0.01 of 15.98 cm. -/
theorem size_estimate_formula_and_scenario (n : ℕ) (d : ℤ) (cls : String)
    (c : ℚ) (hc : get_coin_diameter_cm cls = Except.ok c)
    (hppc : (d : ℚ) / c ≠ 0) :
    calculate_ppc cls d = Except.ok ((d : ℚ) / c) ∧
    calculate_fish_size n ((d : ℚ) / c) =
      Except.ok (Real.sqrt (4 * (11/2 : ℝ) *
        ((n : ℝ) / (((d : ℚ) / c : ℚ) : ℝ) ^ 2) / Real.pi)) ∧
    calculate_ppc "5peso_old" 100 = Except.ok (1000/27) ∧
    |(1000/27 : ℚ) - 37.04| < 1/100 ∧
    fish_area_cm2 50000 (1000/27) = Except.ok (36.45 : ℚ) ∧
    ∃ s : ℝ, calculate_fish_size 50000 (1000/27) = Except.ok s ∧
      s = Real.sqrt (4 * (11/2 : ℝ) * (36.45 : ℝ) / Real.pi) ∧
      |s - 15.98| < 1/100 := by
  refine ⟨calculate_ppc_eq cls d c hc, calculate_fish_size_eq n _ hppc, ?_, ?_, ?_, ?_⟩
  · have h5 : get_coin_diameter_cm "5peso_old" = Except.ok (27/10) := rfl
    rw [calculate_ppc_eq "5peso_old" 100 (27/10) h5]
    norm_num
  · rw [abs_sub_lt_iff]
    constructor <;> norm_num
  · unfold fish_area_cm2
    norm_num
  · have hne : (1000/27 : ℚ) ≠ 0 := by norm_num
    refine ⟨_, calculate_fish_size_eq 50000 (1000/27) hne, ?_, ?_⟩
    · have harg : ((50000 : ℕ) : ℝ) / ((1000/27 : ℚ) : ℝ) ^ 2 = (36.45 : ℝ) := by
        push_cast
        norm_num
      rw [harg]
    · have harg : ((50000 : ℕ) : ℝ) / ((1000/27 : ℚ) : ℝ) ^ 2 = (36.45 : ℝ) := by
        push_cast
        norm_num
      rw [harg]
      have harg2 : 4 * (11/2 : ℝ) * (36.45 : ℝ) = 8019/10 := by norm_num
      rw [harg2]
      have hπ := Real.pi_pos
      have hlo : ((1597/100 : ℝ)) ^ 2 < 8019/10 / Real.pi := by
        rw [lt_div_iff₀ hπ]
        nlinarith [Real.pi_lt_d4]
      have hhi : 8019/10 / Real.pi < ((1599/100 : ℝ)) ^ 2 := by
        rw [div_lt_iff₀ hπ]
        nlinarith [Real.pi_gt_d4]
      have h1 : (1597/100 : ℝ) < Real.sqrt (8019/10 / Real.pi) :=
        (Real.lt_sqrt (by norm_num)).mpr hlo
      have h2 : Real.sqrt (8019/10 / Real.pi) < 1599/100 :=
        (Real.sqrt_lt' (by norm_num)).mpr hhi
      rw [abs_sub_lt_iff]
      constructor <;> [linarith; linarith]

/-- C2 witness: instantiation at the class 20peso (3 cm), pixel diameter
30 and a 7-pixel mask. -/
theorem size_estimate_formula_witness :
    get_coin_diameter_cm "20peso" = Except.ok 3 ∧
    ((30 : ℤ) : ℚ) / 3 ≠ 0 ∧
    (calculate_ppc "20peso" 30 = Except.ok (((30 : ℤ) : ℚ) / 3) ∧
     calculate_fish_size 7 (((30 : ℤ) : ℚ) / 3) =
       Except.ok (Real.sqrt (4 * (11/2 : ℝ) *
         ((7 : ℝ) / ((((30 : ℤ) : ℚ) / 3 : ℚ) : ℝ) ^ 2) / Real.pi)) ∧
     calculate_ppc "5peso_old" 100 = Except.ok (1000/27) ∧
     |(1000/27 : ℚ) - 37.04| < 1/100 ∧
     fish_area_cm2 50000 (1000/27) = Except.ok (36.45 : ℚ) ∧
     ∃ s : ℝ, calculate_fish_size 50000 (1000/27) = Except.ok s ∧
       s = Real.sqrt (4 * (11/2 : ℝ) * (36.45 : ℝ) / Real.pi) ∧
       |s - 15.98| < 1/100) :=
  ⟨rfl, by norm_num,
   size_estimate_formula_and_scenario 7 30 "20peso" 3 rfl (by norm_num)⟩

/-- C3: for fixed positive ppc the size estimate is monotonically
non-decreasing in the pixel count and is exactly 0 at pixel count 0,
with no division error. -/
theorem size_estimate_monotone_and_zero (ppc : ℚ) (hppc : 0 < ppc)
    (m n : ℕ) (hmn : m ≤ n) :
    ∃ sm sn : ℝ, calculate_fish_size m ppc = Except.ok sm ∧
      calculate_fish_size n ppc = Except.ok sn ∧ sm ≤ sn ∧
      calculate_fish_size 0 ppc = Except.ok 0 := by
  refine ⟨_, _, calculate_fish_size_eq m ppc hppc.ne',
    calculate_fish_size_eq n ppc hppc.ne', ?_, ?_⟩
  · apply Real.sqrt_le_sqrt
    have hmn' : (m : ℝ) ≤ (n : ℝ) := Nat.cast_le.mpr hmn
    have hp2 : (0 : ℝ) < (ppc : ℝ) ^ 2 := by positivity
    have hπ : (0 : ℝ) < Real.pi := Real.pi_pos
    gcongr
  · rw [calculate_fish_size_eq 0 ppc hppc.ne']
    norm_num

/-- C3 witness: instantiation at ppc = 2 and pixel counts 3 and 5. -/
theorem size_estimate_monotone_witness :
    (0 : ℚ) < 2 ∧ 3 ≤ 5 ∧
    ∃ sm sn : ℝ, calculate_fish_size 3 2 = Except.ok sm ∧
      calculate_fish_size 5 2 = Except.ok sn ∧ sm ≤ sn ∧
      calculate_fish_size 0 2 = Except.ok 0 :=
  ⟨by norm_num, by norm_num, size_estimate_monotone_and_zero 2 (by norm_num) 3 5 (by norm_num)⟩

theorem countTrue_nil : countTrue [] = 0 := rfl

theorem countTrue_cons (b : Bool) (l : List Bool) :
    countTrue (b :: l) = (if b then 1 else 0) + countTrue l := by
  cases b <;> simp [countTrue, List.filter_cons, Nat.add_comm]

/-- The mask bits of the masked HSV image are those of the input. -/
theorem maskedHSV_snd (px : MaskedImage) :
    (maskedHSV px).map (fun p => p.2) = px.map (fun p => p.2) := by
  unfold maskedHSV
  rw [List.map_map]
  rfl

/-- A band mask intersected with the subject mask has at most as many
set pixels as the subject mask. -/
theorem countTrue_band_le (l : MaskedImage) (g : HSV → Bool) :
    countTrue (l.map (fun p => g p.1 && p.2)) ≤
      countTrue (l.map (fun p => p.2)) := by
  induction l with
  | nil => simp
  | cons p l ih =>
    rw [List.map_cons, List.map_cons, countTrue_cons, countTrue_cons]
    rcases p with ⟨q, b⟩
    cases b <;> cases hg : g q <;> simp <;> omega

/-- The band test on the zeroed image, intersected with the mask, counts
exactly the pixels of the original image that pass the test and lie in
the mask: each band depends only on its own test and the mask. -/
theorem countTrue_maskedHSV_band (px : MaskedImage) (g : HSV → Bool) :
    countTrue ((maskedHSV px).map (fun p => g p.1 && p.2)) =
      countTrue (px.map (fun p => g p.1 && p.2)) := by
  induction px with
  | nil => rfl
  | cons p l ih =>
    rcases p with ⟨q, b⟩
    cases b <;>
      simp only [maskedHSV, List.map_cons, List.map_map, if_true, if_false,
        Bool.and_false, Bool.and_true, countTrue_cons] <;>
      rw [← List.map_map (g := fun p : HSV × Bool => g p.1 && p.2)] <;>
      rw [show List.map (fun p : HSV × Bool =>
        (if p.2 then p.1 else ⟨0, 0, 0⟩, p.2)) l = maskedHSV l from rfl] <;>
      rw [ih]

/-- Unfolding of analyze_colors on a nonempty mask. -/
theorem analyze_colors_eq (P : EdgePrims) (t : ColorThresholds)
    (px : MaskedImage) (h : countTrue (px.map (fun p => p.2)) ≠ 0) :
    analyze_colors P t px =
      { white_pct := (countTrue (create_white_mask t (maskedHSV px)) : ℝ) /
          (countTrue (px.map (fun p => p.2))) * 100
        red_pct := (countTrue (create_red_mask t (maskedHSV px)) : ℝ) /
          (countTrue (px.map (fun p => p.2))) * 100
        black_pct := (countTrue (create_black_mask t (maskedHSV px)) : ℝ) /
          (countTrue (px.map (fun p => p.2))) * 100
        quality_score := calculate_quality_score P (maskedHSV px)
          (px.map (fun p => p.2)) (create_white_mask t (maskedHSV px))
          (create_red_mask t (maskedHSV px))
          (create_black_mask t (maskedHSV px)) } := by
  unfold analyze_colors
  dsimp only
  rw [if_neg h]

/-- Every value selected by a boolean mask occurs among the values. -/
theorem select_subset (vals : List ℕ) (m : List Bool) (x : ℕ)
    (hx : x ∈ select vals m) : x ∈ vals := by
  unfold select at hx
  obtain ⟨⟨a, b⟩, hmem, rfl⟩ := List.mem_map.mp hx
  have hz := List.mem_filter.mp hmem
  exact (List.of_mem_zip hz.1).1

/-- Saturation channels of the masked HSV image are bounded by 255 when
the input pixels are. -/
theorem maskedHSV_s_le (px : MaskedImage)
    (hwf : ∀ p ∈ px, p.1.s ≤ 255) :
    ∀ x ∈ (maskedHSV px).map (fun p => p.1.s), x ≤ 255 := by
  intro x hx
  obtain ⟨p, hp, rfl⟩ := List.mem_map.mp hx
  obtain ⟨q, hq, rfl⟩ := List.mem_map.mp hp
  dsimp only
  cases hb : q.2
  · simp [hb]
  · simpa [hb] using hwf q hq

theorem meanQ_nonneg (l : List ℕ) : 0 ≤ meanQ l := by
  unfold meanQ
  positivity

theorem meanQ_le (l : List ℕ) (B : ℕ) (hB : ∀ x ∈ l, x ≤ B) :
    meanQ l ≤ B := by
  unfold meanQ
  rcases eq_or_ne l [] with rfl | hne
  · simp
  · have hlen : 0 < (l.length : ℚ) := by
      exact_mod_cast List.length_pos.mpr hne
    rw [div_le_iff₀ hlen]
    have hsum : l.sum ≤ l.length * B := by
      calc l.sum ≤ l.length • B := List.sum_le_card_nsmul l B hB
      _ = l.length * B := by simp [smul_eq_mul]
    calc (l.sum : ℚ) ≤ ((l.length * B : ℕ) : ℚ) := by exact_mod_cast hsum
    _ = (B : ℚ) * l.length := by push_cast; ring

theorem stdQ_nonneg (l : List ℕ) : 0 ≤ stdQ l := Real.sqrt_nonneg _

/-- The mean of a nonempty list of reals in the unit interval lies in
the unit interval. -/
theorem list_mean_unit (l : List ℝ) (hne : l ≠ [])
    (hb : ∀ x ∈ l, 0 ≤ x ∧ x ≤ 1) :
    0 ≤ l.sum / l.length ∧ l.sum / l.length ≤ 1 := by
  have hlen : 0 < (l.length : ℝ) := by
    exact_mod_cast List.length_pos.mpr hne
  constructor
  · exact div_nonneg (List.sum_nonneg fun x hx => (hb x hx).1) hlen.le
  · rw [div_le_one hlen]
    have := List.sum_le_card_nsmul l 1 fun x hx => (hb x hx).2
    simpa using this

/-- The saturation sub-score lies in the unit interval. -/
theorem saturation_score_unit (hsvl : MaskedImage) (rm : List Bool)
    (hs : ∀ x ∈ hsvl.map (fun p => p.1.s), x ≤ 255) :
    0 ≤ calculate_saturation_score hsvl rm ∧
      calculate_saturation_score hsvl rm ≤ 1 := by
  unfold calculate_saturation_score
  split_ifs with h
  · norm_num
  · constructor
    · have h0 := meanQ_nonneg (select (hsvl.map (fun p => p.1.s)) rm)
      have h0r : (0 : ℝ) ≤ (meanQ (select (hsvl.map (fun p => p.1.s)) rm) : ℝ) := by
        exact_mod_cast h0
      positivity
    · rw [div_le_one (by norm_num)]
      have hle := meanQ_le (select (hsvl.map (fun p => p.1.s)) rm) 255
        (fun x hx => hs x (select_subset _ _ x hx))
      exact_mod_cast hle

/-- The edge-sharpness sub-score lies in the unit interval. -/
theorem edge_sharpness_unit (P : EdgePrims) (wm rm bm : List Bool) :
    0 ≤ calculate_edge_sharpness P wm rm bm ∧
      calculate_edge_sharpness P wm rm bm ≤ 1 := by
  unfold calculate_edge_sharpness
  dsimp only
  split_ifs with h
  · norm_num
  · exact ⟨le_min (by positivity) (by norm_num), min_le_right _ _⟩

/-- A neutral-or-mean aggregate of unit-interval scores stays in the
unit interval. -/
theorem mean_or_half_unit (scores : List ℝ)
    (hb : ∀ x ∈ scores, 0 ≤ x ∧ x ≤ 1) :
    0 ≤ (if scores = [] then (1/2 : ℝ) else scores.sum / scores.length) ∧
      (if scores = [] then (1/2 : ℝ) else scores.sum / scores.length) ≤ 1 := by
  split_ifs with h
  · norm_num
  · exact list_mean_unit scores h hb

/-- Membership in a singleton-or-empty conditional list forces the
single element. -/
theorem mem_ite_singleton {c : Prop} [Decidable c] (x e : ℝ)
    (hx : x ∈ (if c then [e] else [])) : x = e := by
  split at hx
  · exact List.mem_singleton.mp hx
  · exact absurd hx (List.not_mem_nil x)

/-- A clamped deviation score max 0 (1 - t) with nonnegative t lies in
the unit interval. -/
theorem max_zero_one_sub_unit (t : ℝ) (ht : 0 ≤ t) :
    0 ≤ max 0 (1 - t) ∧ max 0 (1 - t) ≤ 1 :=
  ⟨le_max_left _ _, max_le (by norm_num) (by linarith)⟩

/-- The color-consistency sub-score lies in the unit interval. -/
theorem color_consistency_unit (hsvl : MaskedImage)
    (wm rm bm : List Bool) :
    0 ≤ calculate_color_consistency hsvl wm rm bm ∧
      calculate_color_consistency hsvl wm rm bm ≤ 1 := by
  unfold calculate_color_consistency
  dsimp only
  apply mean_or_half_unit
  intro x hx
  simp only [List.mem_append] at hx
  rcases hx with (hx | hx) | hx
  · have hxe := mem_ite_singleton _ _ hx
    exact hxe ▸ max_zero_one_sub_unit _
      (div_nonneg (stdQ_nonneg _) (by norm_num))
  · have hxe := mem_ite_singleton _ _ hx
    exact hxe ▸ max_zero_one_sub_unit _
      (div_nonneg (add_nonneg (stdQ_nonneg _)
        (div_nonneg (stdQ_nonneg _) (by norm_num))) (by norm_num))
  · have hxe := mem_ite_singleton _ _ hx
    exact hxe ▸ max_zero_one_sub_unit _
      (div_nonneg (stdQ_nonneg _) (by norm_num))

/-- C4: on a mask with zero set pixels analyze_colors returns all-zero
percentages and quality 0, raising nothing. -/
theorem analyze_colors_empty_mask (P : EdgePrims) (t : ColorThresholds)
    (px : MaskedImage) (h : countTrue (px.map (fun p => p.2)) = 0) :
    analyze_colors P t px = ⟨0, 0, 0, 0⟩ := by
  unfold analyze_colors
  dsimp only
  rw [if_pos h]

/-- C4 witness: a single masked-out pixel. -/
theorem analyze_colors_empty_mask_witness :
    countTrue (([((⟨5, 5, 5⟩ : HSV), false)] :
      MaskedImage).map (fun p => p.2)) = 0 ∧
    analyze_colors trivialEdgePrims DEFAULT_COLOR_THRESHOLDS
      [((⟨5, 5, 5⟩ : HSV), false)] = ⟨0, 0, 0, 0⟩ :=
  ⟨by decide, analyze_colors_empty_mask trivialEdgePrims
    DEFAULT_COLOR_THRESHOLDS [((⟨5, 5, 5⟩ : HSV), false)] (by decide)⟩

/-- C5: with a nonempty mask every band percentage lies in [0,100], each
band percentage is determined by its own threshold test on the original
pixels intersected with the subject mask (bands are independent tests),
and the three percentages need not sum to 100, witnessed by a masked
pixel matching no band. -/
theorem band_percentages_bounded_and_independent (P : EdgePrims)
    (t : ColorThresholds) (px : MaskedImage)
    (h : countTrue (px.map (fun p => p.2)) ≠ 0) :
    (0 ≤ (analyze_colors P t px).white_pct ∧
      (analyze_colors P t px).white_pct ≤ 100) ∧
    (0 ≤ (analyze_colors P t px).red_pct ∧
      (analyze_colors P t px).red_pct ≤ 100) ∧
    (0 ≤ (analyze_colors P t px).black_pct ∧
      (analyze_colors P t px).black_pct ≤ 100) ∧
    (analyze_colors P t px).white_pct =
      (countTrue (px.map (fun p =>
          inRange t.white.lower t.white.upper p.1 && p.2)) : ℝ) /
        (countTrue (px.map (fun p => p.2))) * 100 ∧
    (analyze_colors P t px).red_pct =
      (countTrue (px.map (fun p =>
          (inRange t.red1.lower t.red1.upper p.1 ||
           inRange t.red2.lower t.red2.upper p.1) && p.2)) : ℝ) /
        (countTrue (px.map (fun p => p.2))) * 100 ∧
    (analyze_colors P t px).black_pct =
      (countTrue (px.map (fun p =>
          inRange t.black.lower t.black.upper p.1 && p.2)) : ℝ) /
        (countTrue (px.map (fun p => p.2))) * 100 ∧
    (analyze_colors trivialEdgePrims DEFAULT_COLOR_THRESHOLDS
        [((⟨50, 70, 100⟩ : HSV), true)]).white_pct +
      (analyze_colors trivialEdgePrims DEFAULT_COLOR_THRESHOLDS
        [((⟨50, 70, 100⟩ : HSV), true)]).red_pct +
      (analyze_colors trivialEdgePrims DEFAULT_COLOR_THRESHOLDS
        [((⟨50, 70, 100⟩ : HSV), true)]).black_pct ≠ 100 := by
  have htot : (0 : ℝ) < (countTrue (px.map (fun p => p.2)) : ℝ) := by
    exact_mod_cast Nat.pos_of_ne_zero h
  have key : ∀ g : HSV → Bool,
      (0 ≤ (countTrue ((maskedHSV px).map (fun p => g p.1 && p.2)) : ℝ) /
          (countTrue (px.map (fun p => p.2))) * 100 ∧
        (countTrue ((maskedHSV px).map (fun p => g p.1 && p.2)) : ℝ) /
          (countTrue (px.map (fun p => p.2))) * 100 ≤ 100) ∧
      (countTrue ((maskedHSV px).map (fun p => g p.1 && p.2)) : ℝ) /
          (countTrue (px.map (fun p => p.2))) * 100 =
        (countTrue (px.map (fun p => g p.1 && p.2)) : ℝ) /
          (countTrue (px.map (fun p => p.2))) * 100 := by
    intro g
    have hc := countTrue_maskedHSV_band px g
    have hle : countTrue ((maskedHSV px).map (fun p => g p.1 && p.2)) ≤
        countTrue (px.map (fun p => p.2)) := by
      have h1 := countTrue_band_le (maskedHSV px) g
      rwa [maskedHSV_snd] at h1
    have hone : (countTrue ((maskedHSV px).map (fun p => g p.1 && p.2)) : ℝ) /
        (countTrue (px.map (fun p => p.2))) ≤ 1 := by
      rw [div_le_one htot]
      exact_mod_cast hle
    exact ⟨⟨by positivity, by linarith⟩, by rw [hc]⟩
  rw [analyze_colors_eq P t px h]
  dsimp only
  simp only [create_white_mask, create_red_mask, create_black_mask]
  refine ⟨(key (fun q => inRange t.white.lower t.white.upper q)).1,
    (key (fun q => inRange t.red1.lower t.red1.upper q ||
      inRange t.red2.lower t.red2.upper q)).1,
    (key (fun q => inRange t.black.lower t.black.upper q)).1,
    (key (fun q => inRange t.white.lower t.white.upper q)).2,
    (key (fun q => inRange t.red1.lower t.red1.upper q ||
      inRange t.red2.lower t.red2.upper q)).2,
    (key (fun q => inRange t.black.lower t.black.upper q)).2, ?_⟩
  rw [analyze_colors_eq trivialEdgePrims DEFAULT_COLOR_THRESHOLDS
    [((⟨50, 70, 100⟩ : HSV), true)] (by decide)]
  dsimp only
  rw [show countTrue (create_white_mask DEFAULT_COLOR_THRESHOLDS
      (maskedHSV [((⟨50, 70, 100⟩ : HSV), true)])) = 0 from by decide]
  rw [show countTrue (create_red_mask DEFAULT_COLOR_THRESHOLDS
      (maskedHSV [((⟨50, 70, 100⟩ : HSV), true)])) = 0 from by decide]
  rw [show countTrue (create_black_mask DEFAULT_COLOR_THRESHOLDS
      (maskedHSV [((⟨50, 70, 100⟩ : HSV), true)])) = 0 from by decide]
  rw [show countTrue (([((⟨50, 70, 100⟩ : HSV), true)] :
      MaskedImage).map (fun p => p.2)) = 1 from by decide]
  norm_num

/-- C5 witness: a single masked pixel. -/
theorem band_percentages_witness :
    countTrue (([((⟨3, 200, 240⟩ : HSV), true)] :
        MaskedImage).map (fun p => p.2)) ≠ 0 ∧
    ((0 ≤ (analyze_colors trivialEdgePrims DEFAULT_COLOR_THRESHOLDS
        [((⟨3, 200, 240⟩ : HSV), true)]).white_pct ∧
      (analyze_colors trivialEdgePrims DEFAULT_COLOR_THRESHOLDS
        [((⟨3, 200, 240⟩ : HSV), true)]).white_pct ≤ 100) ∧
    (0 ≤ (analyze_colors trivialEdgePrims DEFAULT_COLOR_THRESHOLDS
        [((⟨3, 200, 240⟩ : HSV), true)]).red_pct ∧
      (analyze_colors trivialEdgePrims DEFAULT_COLOR_THRESHOLDS
        [((⟨3, 200, 240⟩ : HSV), true)]).red_pct ≤ 100) ∧
    (0 ≤ (analyze_colors trivialEdgePrims DEFAULT_COLOR_THRESHOLDS
        [((⟨3, 200, 240⟩ : HSV), true)]).black_pct ∧
      (analyze_colors trivialEdgePrims DEFAULT_COLOR_THRESHOLDS
        [((⟨3, 200, 240⟩ : HSV), true)]).black_pct ≤ 100) ∧
    (analyze_colors trivialEdgePrims DEFAULT_COLOR_THRESHOLDS
        [((⟨3, 200, 240⟩ : HSV), true)]).white_pct =
      (countTrue (([((⟨3, 200, 240⟩ : HSV), true)] :
          MaskedImage).map (fun p =>
          inRange DEFAULT_COLOR_THRESHOLDS.white.lower
            DEFAULT_COLOR_THRESHOLDS.white.upper p.1 && p.2)) : ℝ) /
        (countTrue (([((⟨3, 200, 240⟩ : HSV), true)] :
          MaskedImage).map (fun p => p.2))) * 100 ∧
    (analyze_colors trivialEdgePrims DEFAULT_COLOR_THRESHOLDS
        [((⟨3, 200, 240⟩ : HSV), true)]).red_pct =
      (countTrue (([((⟨3, 200, 240⟩ : HSV), true)] :
          MaskedImage).map (fun p =>
          (inRange DEFAULT_COLOR_THRESHOLDS.red1.lower
            DEFAULT_COLOR_THRESHOLDS.red1.upper p.1 ||
           inRange DEFAULT_COLOR_THRESHOLDS.red2.lower
            DEFAULT_COLOR_THRESHOLDS.red2.upper p.1) && p.2)) : ℝ) /
        (countTrue (([((⟨3, 200, 240⟩ : HSV), true)] :
          MaskedImage).map (fun p => p.2))) * 100 ∧
    (analyze_colors trivialEdgePrims DEFAULT_COLOR_THRESHOLDS
        [((⟨3, 200, 240⟩ : HSV), true)]).black_pct =
      (countTrue (([((⟨3, 200, 240⟩ : HSV), true)] :
          MaskedImage).map (fun p =>
          inRange DEFAULT_COLOR_THRESHOLDS.black.lower
            DEFAULT_COLOR_THRESHOLDS.black.upper p.1 && p.2)) : ℝ) /
        (countTrue (([((⟨3, 200, 240⟩ : HSV), true)] :
          MaskedImage).map (fun p => p.2))) * 100 ∧
    (analyze_colors trivialEdgePrims DEFAULT_COLOR_THRESHOLDS
        [((⟨50, 70, 100⟩ : HSV), true)]).white_pct +
      (analyze_colors trivialEdgePrims DEFAULT_COLOR_THRESHOLDS
        [((⟨50, 70, 100⟩ : HSV), true)]).red_pct +
      (analyze_colors trivialEdgePrims DEFAULT_COLOR_THRESHOLDS
        [((⟨50, 70, 100⟩ : HSV), true)]).black_pct ≠ 100) :=
  ⟨by decide, band_percentages_bounded_and_independent trivialEdgePrims
    DEFAULT_COLOR_THRESHOLDS [((⟨3, 200, 240⟩ : HSV), true)] (by decide)⟩

/-- C6: with a nonempty mask the quality score is exactly the weighted
sum 0.40 saturation + 0.35 edges + 0.25 consistency of three sub-scores
that each lie in the unit interval (so the final clamp to [0,1] is
satisfied), and the saturation sub-score is the mean red-band saturation
divided by 255, or exactly 0.5 when the red band is empty. -/
theorem quality_score_weighted_sum (P : EdgePrims) (t : ColorThresholds)
    (px : MaskedImage) (h : countTrue (px.map (fun p => p.2)) ≠ 0)
    (hwf : ∀ p ∈ px, p.1.s ≤ 255) :
    ∃ sat edge cons : ℝ,
      (analyze_colors P t px).quality_score =
        sat * (2/5) + edge * (7/20) + cons * (1/4) ∧
      (0 ≤ sat ∧ sat ≤ 1) ∧ (0 ≤ edge ∧ edge ≤ 1) ∧
      (0 ≤ cons ∧ cons ≤ 1) ∧
      sat = calculate_saturation_score (maskedHSV px)
        (create_red_mask t (maskedHSV px)) ∧
      (countTrue (create_red_mask t (maskedHSV px)) = 0 → sat = 1/2) ∧
      (countTrue (create_red_mask t (maskedHSV px)) ≠ 0 →
        sat = (meanQ (select ((maskedHSV px).map (fun p => p.1.s))
          (create_red_mask t (maskedHSV px))) : ℝ) / 255) := by
  have hs := maskedHSV_s_le px hwf
  have hsat := saturation_score_unit (maskedHSV px)
    (create_red_mask t (maskedHSV px)) hs
  have hedge := edge_sharpness_unit P (create_white_mask t (maskedHSV px))
    (create_red_mask t (maskedHSV px)) (create_black_mask t (maskedHSV px))
  have hcons := color_consistency_unit (maskedHSV px)
    (create_white_mask t (maskedHSV px)) (create_red_mask t (maskedHSV px))
    (create_black_mask t (maskedHSV px))
  refine ⟨_, _, _, ?_, hsat, hedge, hcons, rfl, ?_, ?_⟩
  · rw [analyze_colors_eq P t px h]
    dsimp only
    unfold calculate_quality_score
    dsimp only
    rw [max_eq_left (by nlinarith [hsat.1, hedge.1, hcons.1]),
      min_eq_left (by nlinarith [hsat.2, hedge.2, hcons.2])]
  · intro h0
    unfold calculate_saturation_score
    rw [if_pos h0]
  · intro h0
    unfold calculate_saturation_score
    rw [if_neg h0]

/-- C6 witness: a single masked pixel with low saturation. -/
theorem quality_score_witness :
    countTrue (([((⟨5, 5, 5⟩ : HSV), true)] :
        MaskedImage).map (fun p => p.2)) ≠ 0 ∧
    (∀ p ∈ ([((⟨5, 5, 5⟩ : HSV), true)] : MaskedImage), p.1.s ≤ 255) ∧
    ∃ sat edge cons : ℝ,
      (analyze_colors trivialEdgePrims DEFAULT_COLOR_THRESHOLDS
        [((⟨5, 5, 5⟩ : HSV), true)]).quality_score =
        sat * (2/5) + edge * (7/20) + cons * (1/4) ∧
      (0 ≤ sat ∧ sat ≤ 1) ∧ (0 ≤ edge ∧ edge ≤ 1) ∧
      (0 ≤ cons ∧ cons ≤ 1) ∧
      sat = calculate_saturation_score
        (maskedHSV [((⟨5, 5, 5⟩ : HSV), true)])
        (create_red_mask DEFAULT_COLOR_THRESHOLDS
          (maskedHSV [((⟨5, 5, 5⟩ : HSV), true)])) ∧
      (countTrue (create_red_mask DEFAULT_COLOR_THRESHOLDS
          (maskedHSV [((⟨5, 5, 5⟩ : HSV), true)])) = 0 → sat = 1/2) ∧
      (countTrue (create_red_mask DEFAULT_COLOR_THRESHOLDS
          (maskedHSV [((⟨5, 5, 5⟩ : HSV), true)])) ≠ 0 →
        sat = (meanQ (select
          ((maskedHSV [((⟨5, 5, 5⟩ : HSV), true)]).map (fun p => p.1.s))
          (create_red_mask DEFAULT_COLOR_THRESHOLDS
            (maskedHSV [((⟨5, 5, 5⟩ : HSV), true)]))) : ℝ) / 255) :=
  ⟨by decide, by decide, quality_score_weighted_sum trivialEdgePrims
    DEFAULT_COLOR_THRESHOLDS [((⟨5, 5, 5⟩ : HSV), true)]
    (by decide) (by decide)⟩

/-- C7: on a mask with fewer than 10 set pixels analyze_symmetry
returns exactly 0.5, whatever the image and the library primitives do. -/
theorem analyze_symmetry_small_mask {Img : Type} (P : SymPrims Img)
    (image mask : Img) (h : P.countSet mask < 10) :
    analyze_symmetry P image mask = 1/2 := by
  unfold analyze_symmetry align_fish
  rw [if_pos h]

/-- C7 witness: a single-pixel mask on a one-pixel grid. -/
theorem analyze_symmetry_small_mask_witness :
    trivialSymPrims.countSet [[1]] < 10 ∧
    analyze_symmetry trivialSymPrims [[7]] [[1]] = 1/2 :=
  ⟨by decide, analyze_symmetry_small_mask trivialSymPrims [[7]] [[1]]
    (by decide)⟩

/-- C8: for every input the symmetry score is a well-defined real in
[0,1] (the final clamp bounds it whatever the sub-scores are, and both
early-return paths yield 0.5), and the degenerate sub-computations
resolve to their neutral 0.5: zero total edges for the structural
comparison, and an under-10-pixel grid cell for the pattern
comparison. -/
theorem analyze_symmetry_bounded {Img : Type} (P : SymPrims Img)
    (image mask : Img) :
    (0 ≤ analyze_symmetry P image mask ∧
      analyze_symmetry P image mask ≤ 1) ∧
    (∀ l r : Img,
      P.countSet (P.cannyGray l) + P.countSet (P.cannyGray r) = 0 →
      compare_structure P l r = 1/2) ∧
    (∀ l r : Img, P.height l / 3 < 10 ∨ P.width l / 3 < 10 →
      compare_pattern_distribution P l r = 1/2) := by
  refine ⟨?_, ?_, ?_⟩
  · unfold analyze_symmetry
    rcases halign : align_fish P image mask with _ | ⟨ai, am⟩
    · norm_num
    · dsimp only
      unfold calculate_symmetry_score
      dsimp only
      exact ⟨le_min (le_max_right _ _) (by norm_num), min_le_right _ _⟩
  · intro l r h0
    unfold compare_structure
    dsimp only
    rw [if_pos h0]
  · intro l r h0
    unfold compare_pattern_distribution
    dsimp only
    rw [if_pos h0]

/-- C8 witness: instantiation at a concrete one-pixel grid. -/
theorem analyze_symmetry_bounded_witness :
    (0 ≤ analyze_symmetry trivialSymPrims [[4]] [[1]] ∧
      analyze_symmetry trivialSymPrims [[4]] [[1]] ≤ 1) ∧
    (∀ l r : List (List ℕ),
      trivialSymPrims.countSet (trivialSymPrims.cannyGray l) +
        trivialSymPrims.countSet (trivialSymPrims.cannyGray r) = 0 →
      compare_structure trivialSymPrims l r = 1/2) ∧
    (∀ l r : List (List ℕ), trivialSymPrims.height l / 3 < 10 ∨
        trivialSymPrims.width l / 3 < 10 →
      compare_pattern_distribution trivialSymPrims l r = 1/2) :=
  analyze_symmetry_bounded trivialSymPrims [[4]] [[1]]

/-- C9 counterexample: the label 1PESO_NEW is case-insensitively equal
to the valid class 1peso_new, yet the lookup fails on it instead of
resolving it, because the canonical-key check is case-sensitive and the
alias map holds only the model output spellings. -/
theorem lookup_not_case_insensitive :
    lowercase "1PESO_NEW" = "1peso_new" ∧
    (COIN_SIZES "1peso_new").isSome = true ∧
    get_coin_diameter_cm "1PESO_NEW" =
      Except.error (unknownCoinClassMsg "1PESO_NEW") := by
  refine ⟨by decide, rfl, rfl⟩

/-- C9 amended: the canonical-key check is case-sensitive and only the
alias map is consulted with the lowercased label. Every canonical key
resolves to its own table diameter, every other label whose lowercase
is an alias resolves to the aliased coin's diameter, and every
remaining label fails with the error naming the label and listing the
valid classes, never a silent default. -/
theorem lookup_resolution (s : String) :
    (∀ spec : CoinSpec, COIN_SIZES s = some spec →
      get_coin_diameter_cm s = Except.ok spec.diameter_cm) ∧
    (COIN_SIZES s = none →
      ∀ k : String, COIN_CLASS_MAP (lowercase s) = some k →
      ∃ spec : CoinSpec, COIN_SIZES k = some spec ∧
        get_coin_diameter_cm s = Except.ok spec.diameter_cm) ∧
    (COIN_SIZES s = none → COIN_CLASS_MAP (lowercase s) = none →
      get_coin_diameter_cm s = Except.error (unknownCoinClassMsg s)) := by
  refine ⟨?_, ?_, ?_⟩
  · intro spec hs
    simp [get_coin_diameter_cm, normalize_coin_class, hs]
  · intro hs k hk
    have hv := COIN_CLASS_MAP_valid (lowercase s) k hk
    rcases hspec : COIN_SIZES k with _ | spec
    · rw [hspec] at hv
      exact absurd hv (by simp)
    · exact ⟨spec, rfl,
        by simp [get_coin_diameter_cm, normalize_coin_class, hs, hk, hspec]⟩
  · intro hs hk
    simp [get_coin_diameter_cm, normalize_coin_class, hs, hk]

/-- C9 witness: instantiation at the mixed-case alias 10 PESO OLD BACK,
which the alias map resolves case-insensitively. -/
theorem lookup_resolution_witness :
    ((∀ spec : CoinSpec, COIN_SIZES "10 PESO OLD BACK" = some spec →
      get_coin_diameter_cm "10 PESO OLD BACK" =
        Except.ok spec.diameter_cm) ∧
    (COIN_SIZES "10 PESO OLD BACK" = none →
      ∀ k : String, COIN_CLASS_MAP (lowercase "10 PESO OLD BACK") = some k →
      ∃ spec : CoinSpec, COIN_SIZES k = some spec ∧
        get_coin_diameter_cm "10 PESO OLD BACK" =
          Except.ok spec.diameter_cm) ∧
    (COIN_SIZES "10 PESO OLD BACK" = none →
      COIN_CLASS_MAP (lowercase "10 PESO OLD BACK") = none →
      get_coin_diameter_cm "10 PESO OLD BACK" =
        Except.error (unknownCoinClassMsg "10 PESO OLD BACK"))) ∧
    COIN_CLASS_MAP (lowercase "10 PESO OLD BACK") = some "10peso_old" :=
  ⟨lookup_resolution "10 PESO OLD BACK", by decide⟩

/-- C10: the feature vector is exactly the ten features in the fixed
order size, three pattern indicators, confidence, three color
percentages, quality, symmetry; the indicators one-hot encode the
lowercased pattern name, at most one is set, and every unrecognized
name sets none. -/
theorem feature_vector_order_and_one_hot (size_cm : ℝ)
    (pattern_name : String) (conf w r b q sym : ℝ) :
    ∃ og sh ko : ℝ,
      build_feature_vector size_cm pattern_name conf w r b q sym =
        [size_cm, og, sh, ko, conf, w, r, b, q, sym] ∧
      (build_feature_vector size_cm pattern_name conf w r b q sym).length
        = 10 ∧
      (og = 1 ↔ lowercase pattern_name = "ogon") ∧
      (sh = 1 ↔ lowercase pattern_name = "showa") ∧
      (ko = 1 ↔ lowercase pattern_name = "kohaku") ∧
      (og = 0 ∨ og = 1) ∧ (sh = 0 ∨ sh = 1) ∧ (ko = 0 ∨ ko = 1) ∧
      og + sh + ko ≤ 1 := by
  unfold build_feature_vector
  dsimp only
  refine ⟨_, _, _, rfl, rfl, ?_, ?_, ?_, ?_, ?_, ?_, ?_⟩
  · split_ifs with h1 <;> simp [h1]
  · split_ifs with h1 <;> simp [h1]
  · split_ifs with h1 <;> simp [h1]
  · split_ifs <;> simp
  · split_ifs <;> simp
  · split_ifs <;> simp
  · by_cases h1 : lowercase pattern_name = "ogon" <;>
    by_cases h2 : lowercase pattern_name = "showa" <;>
    by_cases h3 : lowercase pattern_name = "kohaku" <;>
    simp_all

/-- C10 witness: instantiation at the mixed-case name Kohaku. -/
theorem feature_vector_witness :
    ∃ og sh ko : ℝ,
      build_feature_vector 12 "Kohaku" (9/10) 40 35 25 (4/5) (7/10) =
        [12, og, sh, ko, 9/10, 40, 35, 25, 4/5, 7/10] ∧
      (build_feature_vector 12 "Kohaku" (9/10) 40 35 25
        (4/5) (7/10)).length = 10 ∧
      (og = 1 ↔ lowercase "Kohaku" = "ogon") ∧
      (sh = 1 ↔ lowercase "Kohaku" = "showa") ∧
      (ko = 1 ↔ lowercase "Kohaku" = "kohaku") ∧
      (og = 0 ∨ og = 1) ∧ (sh = 0 ∨ sh = 1) ∧ (ko = 0 ∨ ko = 1) ∧
      og + sh + ko ≤ 1 :=
  feature_vector_order_and_one_hot 12 "Kohaku" (9/10) 40 35 25
    (4/5) (7/10)

end KoiAppraisal
